import Mathlib

/-!
# TokenWars token-betting program: shallow embedding and verification

A shallow embedding of the Solana/Anchor program in
`src/smart-contracts/programs/token-betting/src/{lib,state,errors}.rs`.

Modelling conventions:
* `Pubkey` is modelled as `Nat`; `Pubkey::default()` is `0`.
* `u64` / `u16` values are `Nat`s; wherever the source performs 64-bit
  arithmetic whose overflow behaviour matters (raw `+=` / `-=` on lamport
  balances and pool counters, `as u64` narrowing casts), the embedding
  applies the two's-complement wrap `% 2^64` explicitly, matching the
  release-profile semantics of the compiled program.  `u128` intermediate
  products (`as u128` widening in `claim_winnings`) cannot overflow and are
  modelled as plain `Nat` arithmetic.
* Each instruction handler becomes a function returning
  `Except BettingError result`.  Anchor account `constraint`s
  (`PlatformPaused`, `Unauthorized`, `bet.user == user.key()`), which the
  runtime evaluates before the handler body runs, are modelled as checks
  preceding the handler's own `require!`s, in source order.
* The host ledger's CPI transfer in `place_bet` (participant → escrow) is an
  external collaborator with all-or-nothing semantics; the embedding credits
  the escrow on the success path and takes the participant's funding for
  granted, as the handler itself performs no balance check of its own.
-/

namespace TokenWars

/-- `2^64`, the modulus of the host's 64-bit unsigned integers. -/
def U64_MOD : Nat := 18446744073709551616

/-- Wrapping 64-bit addition: release-profile `+=` on `u64`. -/
def wrapAdd64 (a b : Nat) : Nat := (a + b) % U64_MOD

/-- Wrapping 64-bit subtraction: release-profile `-=` on `u64`. -/
def wrapSub64 (a b : Nat) : Nat := (a + U64_MOD - b % U64_MOD) % U64_MOD

/-- Competition status (`state.rs`, `CompetitionStatus`). -/
inductive CompetitionStatus where
  | Upcoming
  | Active
  | Closed
  | Resolved
  | Paused
  | Cancelled
deriving DecidableEq, Repr

/-- Error codes (`errors.rs`, `BettingError`). -/
inductive BettingError where
  | InvalidPlatformFee
  | InvalidStartTime
  | InvalidEndTime
  | DuplicateTokens
  | CompetitionNotStarted
  | CompetitionEnded
  | CompetitionNotActive
  | InvalidTokenChoice
  | InvalidBetAmount
  | AlreadyBet
  | CompetitionNotEnded
  | InvalidCompetitionStatus
  | InvalidWinner
  | CompetitionNotResolved
  | NoWinner
  | NotWinner
  | AlreadyClaimed
  | NoWinnerPool
  | PlatformPaused
  | Unauthorized
  | CompetitionNotPaused
  | AlreadyRefunded
  | InsufficientEscrowBalance
  | MathOverflow
  | InvalidOracleData
  | CompetitionIdTooLong
deriving DecidableEq, Repr

/-- Platform configuration account (`state.rs`, `PlatformConfig`). -/
structure PlatformConfig where
  authority : Nat
  platform_wallet : Nat
  platform_fee : Nat
  is_paused : Bool
  total_competitions : Nat
deriving DecidableEq, Repr

/-- Competition account (`state.rs`, `Competition`). -/
structure Competition where
  competition_id : String
  token_a : Nat
  token_b : Nat
  start_time : Int
  end_time : Int
  status : CompetitionStatus
  total_pool : Nat
  token_a_pool : Nat
  token_b_pool : Nat
  winner_token : Option Nat
  escrow : Nat
  created_at : Int
  token_a_final_performance : Int
  token_b_final_performance : Int
deriving DecidableEq, Repr

/-- Individual bet account (`state.rs`, `Bet`). -/
structure Bet where
  user : Nat
  competition : Nat
  chosen_token : Nat
  amount : Nat
  timestamp : Int
  claimed : Bool
  payout_amount : Nat
deriving DecidableEq, Repr

/-- The platform-initialisation instruction (`lib.rs` 18-36), whose source
name is a Lean keyword: platform fee capped at 10000 bps. -/
def initPlatform (authority platform_wallet platform_fee : Nat) :
    Except BettingError PlatformConfig :=
  if ¬ platform_fee ≤ 10000 then
    .error .InvalidPlatformFee
  else
    .ok { authority := authority
          platform_wallet := platform_wallet
          platform_fee := platform_fee
          is_paused := false
          total_competitions := 0 }

/-- `create_competition` (`lib.rs` 39-81).  The `CreateCompetition` account
constraints (`lib.rs` 350-356) — platform not paused, signer is the platform
authority — precede the handler's own checks.  The handler performs no check
on the length of `competition_id`, so none appears here; the fresh
`init`-zeroed fields the handler does not write (`token_a_final_performance`,
`token_b_final_performance`) are `0`. -/
def create_competition (config : PlatformConfig) (signer : Nat)
    (competition_id : String) (token_a token_b : Nat)
    (start_time end_time : Int) (escrow_key : Nat) (now : Int) :
    Except BettingError (Competition × PlatformConfig) :=
  if config.is_paused then .error .PlatformPaused
  else if ¬ config.authority = signer then .error .Unauthorized
  else if ¬ start_time > now then .error .InvalidStartTime
  else if ¬ end_time > start_time then .error .InvalidEndTime
  else if ¬ token_a ≠ token_b then .error .DuplicateTokens
  else
    .ok ({ competition_id := competition_id
           token_a := token_a
           token_b := token_b
           start_time := start_time
           end_time := end_time
           status := .Upcoming
           total_pool := 0
           token_a_pool := 0
           token_b_pool := 0
           winner_token := none
           escrow := escrow_key
           created_at := now
           token_a_final_performance := 0
           token_b_final_performance := 0 },
         { config with total_competitions := config.total_competitions + 1 })

/-- Result of a successful `place_bet`: the fresh bet record, the updated
competition and the escrow balance after the host transfer. -/
structure PlaceBetResult where
  bet : Bet
  competition : Competition
  escrow_lamports : Nat
deriving DecidableEq, Repr

/-- `place_bet` (`lib.rs` 84-155).  The `PlaceBet` account constraint
(`lib.rs` 394) — platform not paused — precedes the handler checks, which
run in source order: timing window, `Active` status, token choice, fixed
stake of 100 000 000 lamports, no prior bet (`bet.user == Pubkey::default()`
on the `init`-fresh record).  On success the host transfers the stake into
escrow and the pools are bumped with wrapping `u64` addition. -/
def place_bet (config : PlatformConfig) (competition : Competition)
    (competition_key : Nat) (bet : Bet) (user chosen_token amount : Nat)
    (escrow_lamports : Nat) (now : Int) :
    Except BettingError PlaceBetResult :=
  if config.is_paused then .error .PlatformPaused
  else if ¬ now ≥ competition.start_time then .error .CompetitionNotStarted
  else if ¬ now < competition.end_time then .error .CompetitionEnded
  else if ¬ competition.status = .Active then .error .CompetitionNotActive
  else if ¬ (chosen_token = competition.token_a ∨
             chosen_token = competition.token_b) then .error .InvalidTokenChoice
  else if ¬ amount = 100000000 then .error .InvalidBetAmount
  else if ¬ bet.user = 0 then .error .AlreadyBet
  else
    .ok { bet := { user := user
                   competition := competition_key
                   chosen_token := chosen_token
                   amount := amount
                   timestamp := now
                   claimed := false
                   payout_amount := bet.payout_amount }
          competition :=
            { competition with
              total_pool := wrapAdd64 competition.total_pool amount
              token_a_pool :=
                if chosen_token = competition.token_a then
                  wrapAdd64 competition.token_a_pool amount
                else competition.token_a_pool
              token_b_pool :=
                if chosen_token = competition.token_a then
                  competition.token_b_pool
                else wrapAdd64 competition.token_b_pool amount }
          escrow_lamports := wrapAdd64 escrow_lamports amount }

/-- `resolve_competition` (`lib.rs` 159-199).  The `ResolveCompetition`
constraint (`lib.rs` 416) — signer is the platform authority — precedes the
handler checks: competition ended, status `Active` or `Closed`, winner one of
the two tokens. -/
def resolve_competition (config : PlatformConfig) (signer : Nat)
    (competition : Competition) (winner_token : Nat)
    (token_a_performance token_b_performance : Int) (now : Int) :
    Except BettingError Competition :=
  if ¬ config.authority = signer then .error .Unauthorized
  else if ¬ now ≥ competition.end_time then .error .CompetitionNotEnded
  else if ¬ (competition.status = .Active ∨
             competition.status = .Closed) then .error .InvalidCompetitionStatus
  else if ¬ (winner_token = competition.token_a ∨
             winner_token = competition.token_b) then .error .InvalidWinner
  else
    .ok { competition with
          winner_token := some winner_token
          status := .Resolved
          token_a_final_performance := token_a_performance
          token_b_final_performance := token_b_performance }

/-- The winning-side pool (`lib.rs` 230-234). -/
def winnerPool (competition : Competition) (winner_token : Nat) : Nat :=
  if winner_token = competition.token_a then competition.token_a_pool
  else competition.token_b_pool

/-- The platform fee (`lib.rs` 243): `u128`-widened product, floor-divided,
narrowed back to `u64`. -/
def feeAmount (total_pool platform_fee : Nat) : Nat :=
  total_pool * platform_fee / 10000 % U64_MOD

/-- The participant's share (`lib.rs` 246): `u128`-widened product,
floor-divided by the winner pool, narrowed back to `u64`. -/
def payoutShare (winner_total_pool amount winner_pool : Nat) : Nat :=
  winner_total_pool * amount / winner_pool % U64_MOD

/-- Result of a successful `claim_winnings`: the updated bet record and the
three lamport balances the handler mutates. -/
structure ClaimResult where
  bet : Bet
  escrow_lamports : Nat
  user_lamports : Nat
  platform_wallet_lamports : Nat
deriving DecidableEq, Repr

/-- `claim_winnings` (`lib.rs` 202-263).  The `ClaimWinnings` constraint
(`lib.rs` 429) — `bet.user == user.key()` — precedes the handler checks:
status `Resolved`, winner set, caller's bet on the winner, not yet claimed,
non-empty winner pool.  The fee is `total_pool * platform_fee / 10000`
widened to `u128` and narrowed back; the payout is the fee-reduced pool times
`bet.amount / winner_pool`, likewise widened then narrowed.  The two escrow
debits are raw `u64` `-=` with no balance check (the declared
`InsufficientEscrowBalance` error is never raised), modelled as wrapping
subtraction. -/
def claim_winnings (config : PlatformConfig) (competition : Competition)
    (bet : Bet) (user : Nat)
    (escrow_lamports user_lamports platform_wallet_lamports : Nat) :
    Except BettingError ClaimResult :=
  if ¬ bet.user = user then .error .Unauthorized
  else if ¬ competition.status = .Resolved then .error .CompetitionNotResolved
  else
    match competition.winner_token with
    | none => .error .NoWinner
    | some winner_token =>
      if ¬ bet.chosen_token = winner_token then .error .NotWinner
      else if bet.claimed then .error .AlreadyClaimed
      else
        let winner_pool := winnerPool competition winner_token
        if ¬ winner_pool > 0 then .error .NoWinnerPool
        else
          let total_pool := competition.total_pool
          let platform_fee_amount := feeAmount total_pool config.platform_fee
          let winner_total_pool := wrapSub64 total_pool platform_fee_amount
          let user_payout := payoutShare winner_total_pool bet.amount winner_pool
          .ok { bet := { bet with claimed := true, payout_amount := user_payout }
                escrow_lamports :=
                  wrapSub64 (wrapSub64 escrow_lamports user_payout)
                    platform_fee_amount
                user_lamports := wrapAdd64 user_lamports user_payout
                platform_wallet_lamports :=
                  wrapAdd64 platform_wallet_lamports platform_fee_amount }

/-- `emergency_pause` (`lib.rs` 266-272).  The `EmergencyPause` constraint
(`lib.rs` 469) — signer is the platform authority — is the only check; the
handler writes only the platform-level `is_paused` flag. -/
def emergency_pause (config : PlatformConfig) (signer : Nat) (pause : Bool) :
    Except BettingError PlatformConfig :=
  if ¬ config.authority = signer then .error .Unauthorized
  else .ok { config with is_paused := pause }

/-- Result of a successful `emergency_refund`: the updated bet record and the
two lamport balances the handler mutates. -/
structure RefundResult where
  bet : Bet
  escrow_lamports : Nat
  user_lamports : Nat
deriving DecidableEq, Repr

/-- `emergency_refund` (`lib.rs` 275-303).  The `EmergencyRefund` constraint
(`lib.rs` 502) — signer is the platform authority — precedes the handler
checks: status `Paused` or `Cancelled`, bet not yet claimed.  The refund is
the full original stake, debited from escrow by a raw `u64` `-=` with no
balance check, modelled as wrapping subtraction. -/
def emergency_refund (config : PlatformConfig) (signer : Nat)
    (competition : Competition) (bet : Bet)
    (escrow_lamports user_lamports : Nat) :
    Except BettingError RefundResult :=
  if ¬ config.authority = signer then .error .Unauthorized
  else if ¬ (competition.status = .Paused ∨
             competition.status = .Cancelled) then .error .CompetitionNotPaused
  else if bet.claimed then .error .AlreadyRefunded
  else
    .ok { bet := { bet with claimed := true, payout_amount := bet.amount }
          escrow_lamports := wrapSub64 escrow_lamports bet.amount
          user_lamports := wrapAdd64 user_lamports bet.amount }

/-- One program instruction's effect on an existing competition account.
`place_bet` and `resolve_competition` are the only instructions whose account
table marks the competition `mut` and whose handler writes it:
`claim_winnings` and `emergency_refund` take the competition read-only
(`lib.rs` 433-437, 485-489), `emergency_pause` does not reference one, and
`create_competition` allocates a fresh account. -/
inductive CompetitionStep (config : PlatformConfig) :
    Competition → Competition → Prop where
  | placeBet (competition : Competition) (competition_key : Nat) (bet : Bet)
      (user chosen_token amount escrow_lamports : Nat) (now : Int)
      (res : PlaceBetResult)
      (h : place_bet config competition competition_key bet user chosen_token
             amount escrow_lamports now = .ok res) :
      CompetitionStep config competition res.competition
  | resolve (competition : Competition) (signer winner_token : Nat)
      (pa pb : Int) (now : Int) (competition' : Competition)
      (h : resolve_competition config signer competition winner_token pa pb
             now = .ok competition') :
      CompetitionStep config competition competition'

/-! ## Arithmetic helper lemmas -/

theorem wrapAdd64_eq_add {a b : Nat} (h : a + b < U64_MOD) :
    wrapAdd64 a b = a + b :=
  Nat.mod_eq_of_lt h

theorem wrapSub64_eq_sub {a b : Nat} (hb : b ≤ a) (ha : a < U64_MOD) :
    wrapSub64 a b = a - b := by
  have hbM : b < U64_MOD := lt_of_le_of_lt hb ha
  unfold wrapSub64
  rw [Nat.mod_eq_of_lt hbM]
  have h1 : a + U64_MOD - b = a - b + U64_MOD := by omega
  rw [h1, Nat.add_mod_right]
  exact Nat.mod_eq_of_lt (by omega)

theorem fee_div_le_total (total fee : Nat) (h : fee ≤ 10000) :
    total * fee / 10000 ≤ total := by
  calc total * fee / 10000 ≤ total * 10000 / 10000 :=
        Nat.div_le_div_right (Nat.mul_le_mul_left total h)
    _ = total := Nat.mul_div_cancel total (by norm_num)

theorem feeAmount_eq {total fee : Nat} (htotal : total < U64_MOD)
    (hfee : fee ≤ 10000) : feeAmount total fee = total * fee / 10000 := by
  unfold feeAmount
  exact Nat.mod_eq_of_lt (lt_of_le_of_lt (fee_div_le_total total fee hfee) htotal)

theorem feeAmount_le {total fee : Nat} (htotal : total < U64_MOD)
    (hfee : fee ≤ 10000) : feeAmount total fee ≤ total := by
  rw [feeAmount_eq htotal hfee]
  exact fee_div_le_total total fee hfee

theorem share_div_le {dist amount wp : Nat} (hwp : 0 < wp) (hamt : amount ≤ wp) :
    dist * amount / wp ≤ dist := by
  calc dist * amount / wp ≤ dist * wp / wp :=
        Nat.div_le_div_right (Nat.mul_le_mul_left dist hamt)
    _ = dist := Nat.mul_div_cancel dist hwp

theorem payoutShare_eq {dist amount wp : Nat} (hd : dist < U64_MOD)
    (hwp : 0 < wp) (hamt : amount ≤ wp) :
    payoutShare dist amount wp = dist * amount / wp := by
  unfold payoutShare
  exact Nat.mod_eq_of_lt (lt_of_le_of_lt (share_div_le hwp hamt) hd)

/-! ## Inversion and success lemmas for the handlers -/

/-- A successful `place_bet` implies all its guards passed and determines the
result record. -/
theorem place_bet_ok_inv {config : PlatformConfig} {competition : Competition}
    {competition_key : Nat} {bet : Bet} {user chosen_token amount : Nat}
    {escrow_lamports : Nat} {now : Int} {res : PlaceBetResult}
    (h : place_bet config competition competition_key bet user chosen_token
           amount escrow_lamports now = .ok res) :
    config.is_paused = false ∧ now ≥ competition.start_time ∧
    now < competition.end_time ∧ competition.status = .Active ∧
    (chosen_token = competition.token_a ∨ chosen_token = competition.token_b) ∧
    amount = 100000000 ∧ bet.user = 0 ∧
    res = { bet := { user := user
                     competition := competition_key
                     chosen_token := chosen_token
                     amount := amount
                     timestamp := now
                     claimed := false
                     payout_amount := bet.payout_amount }
            competition :=
              { competition with
                total_pool := wrapAdd64 competition.total_pool amount
                token_a_pool :=
                  if chosen_token = competition.token_a then
                    wrapAdd64 competition.token_a_pool amount
                  else competition.token_a_pool
                token_b_pool :=
                  if chosen_token = competition.token_a then
                    competition.token_b_pool
                  else wrapAdd64 competition.token_b_pool amount }
            escrow_lamports := wrapAdd64 escrow_lamports amount } := by
  unfold place_bet at h
  split_ifs at h with h1 h2 h3 h4 h5 h6 h7 <;> simp_all

/-- A successful `resolve_competition` implies all its guards passed and
determines the result record. -/
theorem resolve_ok_inv {config : PlatformConfig} {signer : Nat}
    {competition : Competition} {winner_token : Nat} {pa pb : Int} {now : Int}
    {competition' : Competition}
    (h : resolve_competition config signer competition winner_token pa pb now =
           .ok competition') :
    config.authority = signer ∧ now ≥ competition.end_time ∧
    (competition.status = .Active ∨ competition.status = .Closed) ∧
    (winner_token = competition.token_a ∨
     winner_token = competition.token_b) ∧
    competition' = { competition with
                     winner_token := some winner_token
                     status := .Resolved
                     token_a_final_performance := pa
                     token_b_final_performance := pb } := by
  unfold resolve_competition at h
  split_ifs at h with h1 h2 h3 h4
  all_goals simp_all

/-- Under the claim preconditions, `claim_winnings` succeeds and its effects
are the handler's two debits and two credits plus the bet update. -/
theorem claim_winnings_success {config : PlatformConfig}
    {competition : Competition} {bet : Bet} {user : Nat} {w : Nat}
    (escrow_lamports user_lamports platform_wallet_lamports : Nat)
    (huser : bet.user = user)
    (hstatus : competition.status = .Resolved)
    (hw : competition.winner_token = some w)
    (hchosen : bet.chosen_token = w)
    (hclaimed : bet.claimed = false)
    (hwp : 0 < winnerPool competition w) :
    claim_winnings config competition bet user escrow_lamports user_lamports
        platform_wallet_lamports =
      .ok { bet := { bet with
                     claimed := true
                     payout_amount :=
                       payoutShare
                         (wrapSub64 competition.total_pool
                           (feeAmount competition.total_pool
                             config.platform_fee))
                         bet.amount (winnerPool competition w) }
            escrow_lamports :=
              wrapSub64
                (wrapSub64 escrow_lamports
                  (payoutShare
                    (wrapSub64 competition.total_pool
                      (feeAmount competition.total_pool config.platform_fee))
                    bet.amount (winnerPool competition w)))
                (feeAmount competition.total_pool config.platform_fee)
            user_lamports :=
              wrapAdd64 user_lamports
                (payoutShare
                  (wrapSub64 competition.total_pool
                    (feeAmount competition.total_pool config.platform_fee))
                  bet.amount (winnerPool competition w))
            platform_wallet_lamports :=
              wrapAdd64 platform_wallet_lamports
                (feeAmount competition.total_pool config.platform_fee) } := by
  unfold claim_winnings
  simp [huser, hstatus, hw, hchosen, hclaimed, Nat.pos_iff_ne_zero.mp hwp,
    hwp]

/-! ## Concrete fixtures -/

/-- A platform configuration as produced by the initialisation instruction
with a 10% (1000 bps) fee. -/
def cfgDemo : PlatformConfig :=
  { authority := 1
    platform_wallet := 2
    platform_fee := 1000
    is_paused := false
    total_competitions := 1 }

/-- A resolved demo competition matching the spec's payout example:
pool 1 000 000, winner pool 600 000, token 10 the winner. -/
def compDemo : Competition :=
  { competition_id := "demo"
    token_a := 10
    token_b := 11
    start_time := 50
    end_time := 100
    status := .Resolved
    total_pool := 1000000
    token_a_pool := 600000
    token_b_pool := 400000
    winner_token := some 10
    escrow := 5
    created_at := 0
    token_a_final_performance := 0
    token_b_final_performance := 0 }

/-- An unclaimed bet of 100 000 on `compDemo`'s winning token by user 7. -/
def betDemo : Bet :=
  { user := 7
    competition := 3
    chosen_token := 10
    amount := 100000
    timestamp := 60
    claimed := false
    payout_amount := 0 }

/-- A second unclaimed winning bet on `compDemo`, by user 8. -/
def betDemo2 : Bet := { betDemo with user := 8 }

/-! ## Claim theorems -/

/-- **C2**: for every `claimWinnings` call satisfying the success
preconditions (competition `Resolved` with its winner set, the caller's
unclaimed bet on the winner, non-empty winner pool), the amount credited to
the participant and recorded in `payoutAmount` equals
`floor((poolTotal - floor(poolTotal*feeRateBps/10000)) * amount / winnerPool)`
in exact integer arithmetic — the `u128` widening makes every narrowing cast
lossless under the stated `u64` bounds — and the fee debit equals
`floor(poolTotal*feeRateBps/10000)`.  The spec's concrete instance
(fee 100 000, payout 150 000) is discharged in the witness. -/
theorem claim_winnings_payout_formula
    (config : PlatformConfig) (competition : Competition) (bet : Bet)
    (user w escrow_lamports user_lamports platform_wallet_lamports : Nat)
    (huser : bet.user = user)
    (hstatus : competition.status = .Resolved)
    (hw : competition.winner_token = some w)
    (hchosen : bet.chosen_token = w)
    (hclaimed : bet.claimed = false)
    (hwp : 0 < winnerPool competition w)
    (hamt : bet.amount ≤ winnerPool competition w)
    (htotal : competition.total_pool < U64_MOD)
    (hfee : config.platform_fee ≤ 10000) :
    ∃ res, claim_winnings config competition bet user escrow_lamports
        user_lamports platform_wallet_lamports = .ok res ∧
      res.bet.payout_amount =
        (competition.total_pool -
            competition.total_pool * config.platform_fee / 10000) *
          bet.amount / winnerPool competition w ∧
      res.user_lamports = wrapAdd64 user_lamports res.bet.payout_amount ∧
      res.platform_wallet_lamports =
        wrapAdd64 platform_wallet_lamports
          (competition.total_pool * config.platform_fee / 10000) := by
  have hfa := feeAmount_eq htotal hfee
  have hle := feeAmount_le htotal hfee
  have hdist :
      wrapSub64 competition.total_pool
          (feeAmount competition.total_pool config.platform_fee) =
        competition.total_pool -
          feeAmount competition.total_pool config.platform_fee :=
    wrapSub64_eq_sub hle htotal
  refine ⟨_, claim_winnings_success escrow_lamports user_lamports
    platform_wallet_lamports huser hstatus hw hchosen hclaimed hwp,
    ?_, rfl, by rw [hfa]⟩
  show payoutShare _ _ _ = _
  rw [hdist,
    payoutShare_eq (lt_of_le_of_lt (Nat.sub_le _ _) htotal) hwp hamt, hfa]

/-- Witness for C2 at the spec's concrete instance: pool 1 000 000, fee rate
1000 bps, winner pool 600 000, stake 100 000 — fee 100 000, payout
150 000. -/
theorem claim_winnings_payout_formula_witness :
    ∃ res, claim_winnings cfgDemo compDemo betDemo 7 2000000 0 0 = .ok res ∧
      res.bet.payout_amount = 150000 ∧
      res.platform_wallet_lamports = 100000 := by
  obtain ⟨res, hok, hpay, -, hwallet⟩ :=
    claim_winnings_payout_formula cfgDemo compDemo betDemo 7 10 2000000 0 0
      rfl rfl rfl rfl rfl (by decide) (by decide) (by decide) (by decide)
  refine ⟨res, hok, ?_, ?_⟩
  · rw [hpay]; rfl
  · rw [hwallet]; rfl

/-- **C3**: every successful `claimWinnings` transfers
`feeAmount = floor(poolTotal*feeRateBps/10000)` out of escrow to the fee
recipient on top of the participant's payout, marks the bet
`claimed = true` with `payoutAmount` equal to the payout, and — because the
fee is charged per claim, not per resolution — a second winning claimant's
call on the unchanged competition debits the same fee again. -/
theorem claim_winnings_fee_per_claim
    (config : PlatformConfig) (competition : Competition) (bet bet' : Bet)
    (user user' w e u pw u2 : Nat)
    (huser : bet.user = user)
    (hstatus : competition.status = .Resolved)
    (hw : competition.winner_token = some w)
    (hchosen : bet.chosen_token = w)
    (hclaimed : bet.claimed = false)
    (hwp : 0 < winnerPool competition w)
    (hamt : bet.amount ≤ winnerPool competition w)
    (htotal : competition.total_pool < U64_MOD)
    (hfee : config.platform_fee ≤ 10000)
    (he : e < U64_MOD)
    (hcover : competition.total_pool ≤ e)
    (huser' : bet'.user = user')
    (hchosen' : bet'.chosen_token = w)
    (hclaimed' : bet'.claimed = false) :
    ∃ res res',
      claim_winnings config competition bet user e u pw = .ok res ∧
      res.bet.claimed = true ∧
      res.bet.payout_amount =
        (competition.total_pool -
            competition.total_pool * config.platform_fee / 10000) *
          bet.amount / winnerPool competition w ∧
      res.platform_wallet_lamports =
        wrapAdd64 pw (competition.total_pool * config.platform_fee / 10000) ∧
      res.escrow_lamports =
        e - res.bet.payout_amount -
          competition.total_pool * config.platform_fee / 10000 ∧
      claim_winnings config competition bet' user' res.escrow_lamports u2
          res.platform_wallet_lamports = .ok res' ∧
      res'.platform_wallet_lamports =
        wrapAdd64
          (wrapAdd64 pw (competition.total_pool * config.platform_fee / 10000))
          (competition.total_pool * config.platform_fee / 10000) := by
  have hfa := feeAmount_eq htotal hfee
  have hle := feeAmount_le htotal hfee
  have hdist :
      wrapSub64 competition.total_pool
          (feeAmount competition.total_pool config.platform_fee) =
        competition.total_pool -
          feeAmount competition.total_pool config.platform_fee :=
    wrapSub64_eq_sub hle htotal
  have hpay :
      payoutShare
          (wrapSub64 competition.total_pool
            (feeAmount competition.total_pool config.platform_fee))
          bet.amount (winnerPool competition w) =
        (competition.total_pool -
            competition.total_pool * config.platform_fee / 10000) *
          bet.amount / winnerPool competition w := by
    rw [hdist,
      payoutShare_eq (lt_of_le_of_lt (Nat.sub_le _ _) htotal) hwp hamt, hfa]
  have hpay_le :
      payoutShare
          (wrapSub64 competition.total_pool
            (feeAmount competition.total_pool config.platform_fee))
          bet.amount (winnerPool competition w) +
        feeAmount competition.total_pool config.platform_fee ≤
        competition.total_pool := by
    rw [hpay, hfa]
    have h1 :
        (competition.total_pool -
            competition.total_pool * config.platform_fee / 10000) *
          bet.amount / winnerPool competition w ≤
        competition.total_pool -
          competition.total_pool * config.platform_fee / 10000 :=
      share_div_le hwp hamt
    have h2 := fee_div_le_total competition.total_pool config.platform_fee hfee
    omega
  refine ⟨_, _, claim_winnings_success e u pw huser hstatus hw hchosen
    hclaimed hwp, rfl, hpay, ?_,
    ?_, claim_winnings_success _ u2 _ huser' hstatus hw hchosen' hclaimed' hwp,
    ?_⟩
  · show wrapAdd64 pw (feeAmount _ _) = _
    rw [hfa]
  · show wrapSub64 (wrapSub64 e _) _ = _
    rw [wrapSub64_eq_sub (le_trans (by omega) hcover) he,
      wrapSub64_eq_sub (by omega) (by omega), hpay, hfa]
  · show wrapAdd64 (wrapAdd64 pw (feeAmount _ _)) (feeAmount _ _) = _
    rw [hfa]

/-- Witness for C3: on `compDemo` both user 7 and user 8 claim; each claim
pays the 100 000 fee, so the fee recipient ends with 200 000. -/
theorem claim_winnings_fee_per_claim_witness :
    ∃ res res',
      claim_winnings cfgDemo compDemo betDemo 7 1000000 0 0 = .ok res ∧
      claim_winnings cfgDemo compDemo betDemo2 8 res.escrow_lamports 0
          res.platform_wallet_lamports = .ok res' ∧
      res.platform_wallet_lamports = 100000 ∧
      res'.platform_wallet_lamports = 200000 := by
  obtain ⟨res, res', hok1, -, hpay, hw1, hesc, hok2, hw2⟩ :=
    claim_winnings_fee_per_claim cfgDemo compDemo betDemo betDemo2 7 8 10
      1000000 0 0 0 rfl rfl rfl rfl rfl (by decide) (by decide) (by decide)
      (by decide) (by decide) (by decide) rfl rfl rfl
  refine ⟨res, res', hok1, hok2, ?_, ?_⟩
  · rw [hw1]; rfl
  · rw [hw2]; rfl

/-- **C7**: `poolTotal == poolA + poolB` holds for the competition produced
by `createCompetition` (all three pools are zero) and is preserved by every
operation: `placeBet` adds the stake to `poolTotal` and to exactly one of
`poolA`, `poolB` (exactly, provided the 64-bit accumulator does not
overflow), `resolveCompetition` leaves all three pools untouched, and no
other instruction writes a competition's pools at all (`claim_winnings`,
`emergency_refund` and `emergency_pause` do not modify the competition
account). -/
theorem pool_conservation :
    (∀ (config : PlatformConfig) (signer : Nat) (id : String)
        (ta tb : Nat) (st et : Int) (ek : Nat) (now : Int)
        (comp : Competition) (config' : PlatformConfig),
      create_competition config signer id ta tb st et ek now =
          .ok (comp, config') →
      comp.total_pool = 0 ∧ comp.token_a_pool = 0 ∧ comp.token_b_pool = 0 ∧
        comp.total_pool = comp.token_a_pool + comp.token_b_pool) ∧
    (∀ (config : PlatformConfig) (competition : Competition)
        (key : Nat) (bet : Bet) (user chosen amount e : Nat) (now : Int)
        (res : PlaceBetResult),
      place_bet config competition key bet user chosen amount e now =
          .ok res →
      competition.total_pool =
          competition.token_a_pool + competition.token_b_pool →
      competition.total_pool + amount < U64_MOD →
      res.competition.total_pool =
          res.competition.token_a_pool + res.competition.token_b_pool ∧
        res.competition.total_pool = competition.total_pool + amount ∧
        ((res.competition.token_a_pool = competition.token_a_pool + amount ∧
          res.competition.token_b_pool = competition.token_b_pool) ∨
         (res.competition.token_a_pool = competition.token_a_pool ∧
          res.competition.token_b_pool =
            competition.token_b_pool + amount))) ∧
    (∀ (config : PlatformConfig) (signer : Nat) (competition : Competition)
        (w : Nat) (pa pb : Int) (now : Int) (competition' : Competition),
      resolve_competition config signer competition w pa pb now =
          .ok competition' →
      competition'.total_pool = competition.total_pool ∧
        competition'.token_a_pool = competition.token_a_pool ∧
        competition'.token_b_pool = competition.token_b_pool) := by
  refine ⟨?_, ?_, ?_⟩
  · intro config signer id ta tb st et ek now comp config' h
    unfold create_competition at h
    split_ifs at h with h1 h2 h3 h4 h5
    all_goals simp_all
    obtain ⟨hc, -⟩ := h
    subst hc
    exact ⟨rfl, rfl, rfl, rfl⟩
  · intro config competition key bet user chosen amount e now res h hinv hov
    obtain ⟨-, -, -, -, -, -, -, hres⟩ := place_bet_ok_inv h
    subst hres
    have hA : competition.token_a_pool ≤ competition.total_pool := by omega
    have hB : competition.token_b_pool ≤ competition.total_pool := by omega
    by_cases hc : chosen = competition.token_a
    · simp only [hc, if_pos rfl]
      rw [wrapAdd64_eq_add hov, wrapAdd64_eq_add (by omega)]
      simp [hc]
      omega
    · simp only [if_neg hc]
      rw [wrapAdd64_eq_add hov, wrapAdd64_eq_add (by omega)]
      simp [hc]
      omega
  · intro config signer competition w pa pb now competition' h
    obtain ⟨-, -, -, -, hres⟩ := resolve_ok_inv h
    subst hres
    exact ⟨rfl, rfl, rfl⟩

/-- An `Active` variant of `compDemo` before resolution, with empty pools,
used to instantiate successful `placeBet` and `resolveCompetition` runs. -/
def compActive : Competition :=
  { compDemo with
    status := .Active
    total_pool := 0
    token_a_pool := 0
    token_b_pool := 0
    winner_token := none }

/-- A fresh (zeroed) bet account, as `init` hands it to `place_bet`. -/
def betFresh : Bet :=
  { user := 0
    competition := 0
    chosen_token := 0
    amount := 0
    timestamp := 0
    claimed := false
    payout_amount := 0 }

/-- Witness for C7: a concrete creation, a concrete successful bet on
`compActive` and a concrete resolution all maintain
`poolTotal = poolA + poolB`. -/
theorem pool_conservation_witness :
    (∃ comp config',
      create_competition cfgDemo 1 "wars" 10 11 50 100 6 0 =
          .ok (comp, config') ∧
        comp.total_pool = comp.token_a_pool + comp.token_b_pool) ∧
    (∃ res,
      place_bet cfgDemo compActive 3 betFresh 7 10 100000000 0 60 =
          .ok res ∧
        res.competition.total_pool =
          res.competition.token_a_pool + res.competition.token_b_pool) ∧
    (∃ comp',
      resolve_competition cfgDemo 1 compActive 10 5 (-3) 150 = .ok comp' ∧
        comp'.total_pool = comp'.token_a_pool + comp'.token_b_pool) := by
  obtain ⟨hcreate, hplace, hresolve⟩ := pool_conservation
  refine ⟨⟨_, _, rfl, ?_⟩, ⟨_, rfl, ?_⟩, ⟨_, rfl, ?_⟩⟩
  · exact (hcreate cfgDemo 1 "wars" 10 11 50 100 6 0 _ _ rfl).2.2.2
  · exact (hplace cfgDemo compActive 3 betFresh 7 10 100000000 0 60 _ rfl
      rfl (by decide)).1
  · obtain ⟨ht, ha, hb⟩ :=
      hresolve cfgDemo 1 compActive 10 5 (-3) 150 _ rfl
    rw [ht, ha, hb]
    decide

/-- **C8**: with the platform unpaused, `placeBet` strictly before
`startTime` fails `CompetitionNotStarted`; at or after `endTime` (for a
well-formed window `startTime < endTime`) it fails `CompetitionEnded`; and
exactly at `startTime` it succeeds whenever `status == Active`, the chosen
token is one of the two, the stake is the fixed 100 000 000 lamports and no
prior bet exists. -/
theorem place_bet_timing_gate
    (config : PlatformConfig) (competition : Competition)
    (key : Nat) (bet : Bet) (user chosen amount e : Nat) (now : Int)
    (hp : config.is_paused = false) :
    (now < competition.start_time →
      place_bet config competition key bet user chosen amount e now =
        .error .CompetitionNotStarted) ∧
    (competition.start_time < competition.end_time →
      competition.end_time ≤ now →
      place_bet config competition key bet user chosen amount e now =
        .error .CompetitionEnded) ∧
    (now = competition.start_time →
      competition.start_time < competition.end_time →
      competition.status = .Active →
      (chosen = competition.token_a ∨ chosen = competition.token_b) →
      amount = 100000000 →
      bet.user = 0 →
      ∃ res, place_bet config competition key bet user chosen amount e now =
        .ok res) := by
  refine ⟨?_, ?_, ?_⟩
  · intro hlt
    unfold place_bet
    rw [if_neg (by simp [hp]), if_pos (by omega)]
  · intro hwin hend
    unfold place_bet
    rw [if_neg (by simp [hp]), if_neg (by omega), if_pos (by omega)]
  · intro hstart hwin hactive hchoice hamt hfresh
    unfold place_bet
    rw [if_neg (by simp [hp]), if_neg (by omega), if_neg (by omega),
      if_neg (by simp [hactive]), if_neg (by simp [hchoice]),
      if_neg (by simp [hamt]), if_neg (by simp [hfresh])]
    exact ⟨_, rfl⟩

/-- Witness for C8 on `compActive` (window `[50, 100)`): a bet at time 49
fails `CompetitionNotStarted`, at time 100 fails `CompetitionEnded`, and at
time 50 succeeds. -/
theorem place_bet_timing_gate_witness :
    place_bet cfgDemo compActive 3 betFresh 7 10 100000000 0 49 =
        .error .CompetitionNotStarted ∧
    place_bet cfgDemo compActive 3 betFresh 7 10 100000000 0 100 =
        .error .CompetitionEnded ∧
    ∃ res, place_bet cfgDemo compActive 3 betFresh 7 10 100000000 0 50 =
        .ok res := by
  obtain ⟨h1, h2, h3⟩ :=
    place_bet_timing_gate cfgDemo compActive 3 betFresh 7 10 100000000 0 49
      rfl
  obtain ⟨-, h2', -⟩ :=
    place_bet_timing_gate cfgDemo compActive 3 betFresh 7 10 100000000 0 100
      rfl
  obtain ⟨-, -, h3'⟩ :=
    place_bet_timing_gate cfgDemo compActive 3 betFresh 7 10 100000000 0 50
      rfl
  exact ⟨h1 (by decide), h2' (by decide) (by decide),
    h3' rfl (by decide) rfl (Or.inl rfl) rfl rfl⟩

/-- **C10**: once a competition is `Resolved`, every further
`resolveCompetition` call on it fails — with `InvalidCompetitionStatus` for
an authorized caller at or after `endTime` (the only calls a monotone clock
permits after the first resolution) — so its status stays `Resolved`; and no
program instruction ever replaces the competition with one whose
`winner_token` differs: the only competition-mutating instructions both fail
on a `Resolved` competition. -/
theorem resolved_is_frozen
    (config : PlatformConfig) (competition : Competition)
    (hstatus : competition.status = .Resolved) :
    (∀ (signer w : Nat) (pa pb now : Int), ∃ err,
      resolve_competition config signer competition w pa pb now =
        .error err) ∧
    (∀ (signer w : Nat) (pa pb now : Int),
      config.authority = signer →
      competition.end_time ≤ now →
      resolve_competition config signer competition w pa pb now =
        .error .InvalidCompetitionStatus) ∧
    (∀ c', CompetitionStep config competition c' →
      c'.status = .Resolved ∧
        c'.winner_token = competition.winner_token) := by
  refine ⟨?_, ?_, ?_⟩
  · intro signer w pa pb now
    unfold resolve_competition
    split_ifs with h1 h2 h3 h4
    all_goals first
      | exact ⟨_, rfl⟩
      | simp [hstatus] at h3
  · intro signer w pa pb now hauth hend
    unfold resolve_competition
    rw [if_neg (by simp [hauth]), if_neg (by omega),
      if_pos (by simp [hstatus])]
  · intro c' hstep
    cases hstep with
    | placeBet key bet user chosen amount e now res h =>
      obtain ⟨-, -, -, hactive, -⟩ := place_bet_ok_inv h
      rw [hstatus] at hactive
      cases hactive
    | resolve signer w pa pb now c2 h =>
      obtain ⟨-, -, hac, -⟩ := resolve_ok_inv h
      rw [hstatus] at hac
      rcases hac with hac | hac
      · cases hac
      · cases hac

/-- Witness for C10: on the concrete resolved `compDemo`, a second
authorized resolution at time 150 fails `InvalidCompetitionStatus`. -/
theorem resolved_is_frozen_witness :
    resolve_competition cfgDemo 1 compDemo 11 7 9 150 =
      .error .InvalidCompetitionStatus :=
  (resolved_is_frozen cfgDemo compDemo rfl).2.1 1 11 7 9 150 rfl (by decide)

/-- The bet record of `betDemo` after its successful claim on `compDemo`:
claimed, with the 150 000 payout recorded. -/
def betDemoClaimed : Bet :=
  { betDemo with claimed := true, payout_amount := 150000 }

/-- Counterexample to **C1** as stated: after user 7's `claimWinnings` on
`compDemo` succeeds (marking the bet claimed), a subsequent
`emergencyRefund` on that bet fails with `CompetitionNotPaused` — the
status guard precedes the claimed guard — not with the claimed
`AlreadyRefunded`. -/
theorem refund_after_claim_error_cex :
    ∃ res, claim_winnings cfgDemo compDemo betDemo 7 1000000 0 0 = .ok res ∧
      res.bet = betDemoClaimed ∧
      emergency_refund cfgDemo 1 compDemo res.bet 750000 150000 =
        .error .CompetitionNotPaused ∧
      BettingError.CompetitionNotPaused ≠ BettingError.AlreadyRefunded := by
  exact ⟨_, rfl, rfl, rfl, by decide⟩

/-- **C1 (amended)**: once a Bet has `claimed = true`, every subsequent
`claimWinnings` call on it fails — with `AlreadyClaimed` whenever the three
preceding guards pass (caller owns the bet, competition `Resolved`, bet on
the set winner) — and every subsequent `emergencyRefund` call fails — with
`AlreadyRefunded` whenever the competition is `Paused` or `Cancelled`, and
with the corresponding status/authorization error otherwise; since the
claim, refund and bet-placement instructions all fail on such a bet (the
fresh-account guard rejects any existing bet record), no operation ever
changes its `payoutAmount`. -/
theorem claim_refund_at_most_once
    (config : PlatformConfig) (competition : Competition) (bet : Bet)
    (hclaimed : bet.claimed = true) :
    (∀ (user e u pw : Nat), ∃ err,
      claim_winnings config competition bet user e u pw = .error err) ∧
    (∀ (user w e u pw : Nat),
      bet.user = user →
      competition.status = .Resolved →
      competition.winner_token = some w →
      bet.chosen_token = w →
      claim_winnings config competition bet user e u pw =
        .error .AlreadyClaimed) ∧
    (∀ (signer e u : Nat), ∃ err,
      emergency_refund config signer competition bet e u = .error err) ∧
    (∀ (signer e u : Nat),
      config.authority = signer →
      (competition.status = .Paused ∨ competition.status = .Cancelled) →
      emergency_refund config signer competition bet e u =
        .error .AlreadyRefunded) ∧
    (∀ (config' : PlatformConfig) (competition' : Competition)
        (key user chosen amount e : Nat) (now : Int),
      bet.user ≠ 0 → ∃ err,
        place_bet config' competition' key bet user chosen amount e now =
          .error err) := by
  refine ⟨?_, ?_, ?_, ?_, ?_⟩
  · intro user e u pw
    rcases hcw : competition.winner_token with _ | w
    all_goals unfold claim_winnings
    all_goals rw [hcw]
    all_goals split_ifs
    all_goals first
      | exact ⟨_, rfl⟩
      | simp_all
    all_goals try split_ifs
    all_goals exact ⟨_, rfl⟩
  · intro user w e u pw huser hres hw hchosen
    unfold claim_winnings
    simp [huser, hres, hw, hchosen, hclaimed]
  · intro signer e u
    unfold emergency_refund
    split_ifs
    all_goals exact ⟨_, rfl⟩
  · intro signer e u hauth hpc
    unfold emergency_refund
    rw [if_neg (by simp [hauth]), if_neg (by simp [hpc]), if_pos hclaimed]
  · intro config' competition' key user chosen amount e now hne
    unfold place_bet
    split_ifs
    all_goals exact ⟨_, rfl⟩

/-- Witness for C1 (amended): the claimed demo bet is rejected with
`AlreadyClaimed` by a repeat claim, and rejected by a refund attempt and a
repeat placement. -/
theorem claim_refund_at_most_once_witness :
    claim_winnings cfgDemo compDemo betDemoClaimed 7 750000 150000 100000 =
        .error .AlreadyClaimed ∧
    (∃ err, emergency_refund cfgDemo 1 compDemo betDemoClaimed 750000 150000 =
        .error err) ∧
    (∃ err, place_bet cfgDemo compActive 3 betDemoClaimed 7 10 100000000 0 60 =
        .error err) := by
  obtain ⟨-, hclaim, hrefund, -, hplace⟩ :=
    claim_refund_at_most_once cfgDemo compDemo betDemoClaimed rfl
  exact ⟨hclaim 7 10 750000 150000 100000 rfl rfl rfl rfl,
    hrefund 1 750000 150000,
    hplace cfgDemo compActive 3 7 10 100000000 0 60 (by decide)⟩

/-- The competition record produced by
`create_competition cfgDemo 1 "wars" 10 11 50 100 6 0`. -/
def compCreated : Competition :=
  { competition_id := "wars"
    token_a := 10
    token_b := 11
    start_time := 50
    end_time := 100
    status := .Upcoming
    total_pool := 0
    token_a_pool := 0
    token_b_pool := 0
    winner_token := none
    escrow := 6
    created_at := 0
    token_a_final_performance := 0
    token_b_final_performance := 0 }

/-- Counterexample to **C6** as stated: the freshly created competition is
`Upcoming` and stays so when its clock window opens — `placeBet` at
`startTime` (and later, still inside the window) fails
`CompetitionNotActive`, so no `Upcoming → Active` transition ever happened —
and `emergency_pause`, the only emergency instruction, succeeds by changing
nothing but the platform-level `is_paused` flag, forcing no competition to
`Paused` or `Cancelled`. -/
theorem no_status_transition_cex :
    create_competition cfgDemo 1 "wars" 10 11 50 100 6 0 =
      .ok (compCreated, { cfgDemo with total_competitions := 2 }) ∧
    compCreated.status = .Upcoming ∧
    place_bet cfgDemo compCreated 3 betFresh 7 10 100000000 0 50 =
      .error .CompetitionNotActive ∧
    place_bet cfgDemo compCreated 3 betFresh 7 10 100000000 0 99 =
      .error .CompetitionNotActive ∧
    emergency_pause cfgDemo 1 true = .ok { cfgDemo with is_paused := true } :=
  ⟨rfl, rfl, rfl, rfl, rfl⟩

/-- **C6 (amended)**: the program provides no instruction that moves a
competition's status to `Active`, `Paused` or `Cancelled`:
`createCompetition` always produces `Upcoming`; the only instructions that
write an existing competition either preserve its status (`placeBet`) or set
`Resolved` from `Active`/`Closed` (`resolveCompetition`); and
`emergency_pause` only toggles the platform-level `is_paused` flag.  The
`Upcoming → Active` flip and the forcing to `Paused`/`Cancelled` that the
claim describes can only come from outside the program's operation set. -/
theorem status_transitions_limited :
    (∀ (config : PlatformConfig) (signer : Nat) (id : String)
        (ta tb : Nat) (st et : Int) (ek : Nat) (now : Int)
        (comp : Competition) (config' : PlatformConfig),
      create_competition config signer id ta tb st et ek now =
          .ok (comp, config') →
      comp.status = .Upcoming) ∧
    (∀ (config : PlatformConfig) (c c' : Competition),
      CompetitionStep config c c' →
      c'.status = c.status ∨
        (c'.status = .Resolved ∧
          (c.status = .Active ∨ c.status = .Closed))) ∧
    (∀ (config : PlatformConfig) (signer : Nat) (pause : Bool)
        (config' : PlatformConfig),
      emergency_pause config signer pause = .ok config' →
      config' = { config with is_paused := pause }) := by
  refine ⟨?_, ?_, ?_⟩
  · intro config signer id ta tb st et ek now comp config' h
    unfold create_competition at h
    split_ifs at h
    all_goals simp_all
    obtain ⟨hc, -⟩ := h
    subst hc
    rfl
  · intro config c c' hstep
    cases hstep with
    | placeBet key bet user chosen amount e now res h =>
      obtain ⟨-, -, -, -, -, -, -, hres⟩ := place_bet_ok_inv h
      subst hres
      exact Or.inl rfl
    | resolve signer w pa pb now c2 h =>
      obtain ⟨-, -, hac, -, hres⟩ := resolve_ok_inv h
      subst hres
      exact Or.inr ⟨rfl, hac⟩
  · intro config signer pause config' h
    unfold emergency_pause at h
    split_ifs at h
    all_goals simp_all

/-- The result record of a successful stake on `compActive` by user 7 at
time 60. -/
def resPlaced : PlaceBetResult :=
  { bet := { user := 7
             competition := 3
             chosen_token := 10
             amount := 100000000
             timestamp := 60
             claimed := false
             payout_amount := 0 }
    competition :=
      { compActive with total_pool := 100000000, token_a_pool := 100000000 }
    escrow_lamports := 100000000 }

/-- Witness for C6 (amended): instantiated at the concrete creation, a
concrete successful bet step on an `Active` competition, and a concrete
pause toggle. -/
theorem status_transitions_limited_witness :
    compCreated.status = .Upcoming ∧
    (resPlaced.competition.status = compActive.status ∨
      (resPlaced.competition.status = .Resolved ∧
        (compActive.status = .Active ∨ compActive.status = .Closed))) ∧
    ∃ config', emergency_pause cfgDemo 1 true = .ok config' ∧
      config' = { cfgDemo with is_paused := true } := by
  have hstep : CompetitionStep cfgDemo compActive resPlaced.competition :=
    .placeBet compActive 3 betFresh 7 10 100000000 0 60 resPlaced rfl
  exact ⟨status_transitions_limited.1 cfgDemo 1 "wars" 10 11 50 100 6 0
      compCreated { cfgDemo with total_competitions := 2 } rfl,
    status_transitions_limited.2.1 cfgDemo compActive resPlaced.competition
      hstep,
    _, rfl, status_transitions_limited.2.2 cfgDemo 1 true _ rfl⟩

/-- A `Paused` competition holding one 100 000 000-lamport stake. -/
def compPaused : Competition :=
  { compActive with
    status := .Paused
    total_pool := 100000000
    token_a_pool := 100000000 }

/-- The stake bet sitting on `compPaused`. -/
def betStake : Bet :=
  { user := 7
    competition := 3
    chosen_token := 10
    amount := 100000000
    timestamp := 60
    claimed := false
    payout_amount := 0 }

/-- **C4** (refuting theorem): the escrow debits of `emergency_refund` and
`claim_winnings` are not checked against the available balance — with an
empty escrow both calls succeed and the balance wraps around `2^64` instead
of the operation failing: the declared `InsufficientEscrowBalance` error is
never raised by any handler. -/
theorem escrow_debit_unchecked_wraps :
    emergency_refund cfgDemo 1 compPaused betStake 0 0 =
      .ok { bet := { betStake with claimed := true, payout_amount := 100000000 }
            escrow_lamports := 18446744073609551616
            user_lamports := 100000000 } ∧
    claim_winnings cfgDemo compDemo betDemo 7 0 0 0 =
      .ok { bet := betDemoClaimed
            escrow_lamports := 18446744073709301616
            user_lamports := 150000
            platform_wallet_lamports := 100000 } :=
  ⟨rfl, rfl⟩

/-- A resolved competition with ten 100 000 000-lamport stakes, six of them
on the winning token 10. -/
def compBig : Competition :=
  { compDemo with
    total_pool := 1000000000
    token_a_pool := 600000000
    token_b_pool := 400000000 }

/-- One of the six winning stakes on `compBig`. -/
def betBig (u : Nat) : Bet :=
  { user := u
    competition := 3
    chosen_token := 10
    amount := 100000000
    timestamp := 60
    claimed := false
    payout_amount := 0 }

/-- Runs `claim_winnings` on `compBig` for each listed user in turn,
threading the escrow balance and fee-recipient balance and accumulating the
total paid to participants. -/
def runClaims : List Nat → Nat × Nat × Nat → Except BettingError (Nat × Nat × Nat)
  | [], st => .ok st
  | u :: rest, (e, pw, paid) =>
    match claim_winnings cfgDemo compBig (betBig u) u e 0 pw with
    | .error err => .error err
    | .ok res =>
      runClaims rest (res.escrow_lamports, res.platform_wallet_lamports,
        paid + res.bet.payout_amount)

/-- **C5** (refuting theorem): with the escrow funded with exactly
`poolTotal` = 1 000 000 000, the six winning claims on `compBig` all
succeed, paying 900 000 000 to the participants and 600 000 000 to the fee
recipient — 1 500 000 000 in total, exceeding `poolTotal` — and the escrow
balance wraps around `2^64` (to `2^64 - 500 000 000`) instead of staying
non-negative. -/
theorem total_disbursement_exceeds_pool :
    runClaims [21, 22, 23, 24, 25, 26] (compBig.total_pool, 0, 0) =
      .ok (18446744073209551616, 600000000, 900000000) ∧
    600000000 + 900000000 > compBig.total_pool ∧
    18446744073209551616 > compBig.total_pool :=
  ⟨rfl, by decide, by decide⟩

/-- A 40-character competition id, over the documented 32-character bound. -/
def longId : String := "aaaaaaaaaaaaaaaaaaaaaaaaaaaaaaaaaaaaaaaa"

/-- The competition record `create_competition` builds for `longId`. -/
def compLong : Competition :=
  { compCreated with competition_id := longId }

/-- **C9** (refuting theorem): `create_competition` performs no length check
on the competition id — a 40-character id is accepted and the competition is
created, rather than the call failing with `CompetitionIdTooLong` (an error
the program declares but never raises). -/
theorem create_competition_long_id_accepted :
    32 < longId.length ∧
    create_competition cfgDemo 1 longId 10 11 50 100 6 0 =
      .ok (compLong, { cfgDemo with total_competitions := 2 }) :=
  ⟨by decide, rfl⟩

end TokenWars
